import Mathlib

/-!
Verification of the Cynaps3 OpenClaw plugin request/response core.

Shallow embedding of the TypeScript sources:
* src/core/pick.ts            — parameter sanitizer (pick)
* src/core/errors.ts          — CynapsApiError, wrapError
* src/core/api-client.ts      — CynapsApiClient.call retry loop, query response
                                handling, parseRetryAfter
* src/core/types.ts           — isConfirmationResponse (body reproduced verbatim
                                in COMMUNITY_SUBMISSION.md and pinned by tests)
* src/tools/musicmation-write.ts    — rate-tracks confirmation handling
* src/tools/musicmation-generate.ts — musicmation_generate two-step flow
* src/tools/musicmation-content.ts  — musicmation_update_item body construction

JavaScript dynamic values are modelled by the inductive `JSVal`; objects are
association lists with JS-object field semantics (first binding wins on read,
in-place overwrite on assignment). Machine integers are Nat/Int. Network
effects are made explicit: the retry loop of `call` is a function of the
stream of per-attempt outcomes, and each tool handler is a function of the
outcomes of the backend steps it performs.
-/

namespace Cynaps

/-- Model of a JavaScript runtime value as delivered by JSON parsing plus the
`undefined` sentinel. `obj` carries its fields as an association list. -/
inductive JSVal where
  | undefined : JSVal
  | null : JSVal
  | bool : Bool → JSVal
  | num : Int → JSVal
  | str : String → JSVal
  | obj : List (String × JSVal) → JSVal
  | arr : List JSVal → JSVal

/-- A JavaScript object: an association list of fields. -/
abbrev JSObj := List (String × JSVal)

/-- Reading `o[k]`: the first binding of `k` wins; a missing key reads as
`undefined`, exactly as in JavaScript. -/
def getField (o : JSObj) (k : String) : JSVal :=
  match o with
  | [] => JSVal.undefined
  | (k', v) :: rest => if k' == k then v else getField rest k

/-- Whether the object has a binding for `k` (own-property check). -/
def hasKey (o : JSObj) (k : String) : Bool :=
  match o with
  | [] => false
  | (k', _) :: rest => k' == k || hasKey rest k

/-- Assignment `o[k] = v`: overwrite the first binding in place, or append a
new binding when the key is absent — JS property-order semantics. -/
def setField (o : JSObj) (k : String) (v : JSVal) : JSObj :=
  match o with
  | [] => [(k, v)]
  | (k', v') :: rest => if k' == k then (k, v) :: rest else (k', v') :: setField rest k v

/-- Strict test for the `undefined` sentinel (JS `x !== undefined` negated). -/
def JSVal.isUndefined : JSVal → Bool
  | JSVal.undefined => true
  | _ => false

/-- Strict test for `null` (JS `x === null`). -/
def JSVal.isNull : JSVal → Bool
  | JSVal.null => true
  | _ => false

/-- Strict test for boolean `true` (JS `x === true`). -/
def JSVal.isTrue : JSVal → Bool
  | JSVal.bool true => true
  | _ => false

/-- The loop body of `pick` (src/core/pick.ts): starting from accumulator
`out`, for each allowed key copy the input's value unless it is `undefined`.
Faithful to `for (const k of keys) if (obj[k] !== undefined) out[k] = obj[k]`. -/
def pickGo (obj : JSObj) (keys : List String) (out : JSObj) : JSObj :=
  match keys with
  | [] => out
  | k :: rest =>
      pickGo obj rest
        (if (getField obj k).isUndefined then out else setField out k (getField obj k))

/-- `pick(obj, keys)` from src/core/pick.ts: strip unknown fields, keeping
only the allow-listed keys whose value is defined. -/
def pick (obj : JSObj) (keys : List String) : JSObj :=
  pickGo obj keys []

-- ─── Error classifier (src/core/errors.ts) ───────────────────────

/-- CynapsApiError: typed error carrying the HTTP status and the optional
machine code and correlation id from the backend's error body. -/
structure CynapsApiError where
  message : String
  status : Nat
  code : Option String := none
  errorId : Option String := none
deriving DecidableEq, Repr

/-- `isClientError`: status in 400..499. -/
def CynapsApiError.isClientError (e : CynapsApiError) : Bool :=
  400 ≤ e.status && e.status < 500

/-- `isServerError`: status at least 500. -/
def CynapsApiError.isServerError (e : CynapsApiError) : Bool :=
  500 ≤ e.status

/-- `isAuthError`: status exactly 401 or 403. -/
def CynapsApiError.isAuthError (e : CynapsApiError) : Bool :=
  e.status == 401 || e.status == 403

/-- `isRateLimited`: status exactly 429. -/
def CynapsApiError.isRateLimited (e : CynapsApiError) : Bool :=
  e.status == 429

/-- The fixed sentence shown for auth failures. -/
def authErrorSentence : String := "Having trouble connecting — try again in a moment."

/-- The fixed sentence shown for server failures. -/
def serverErrorSentence : String := "Something went wrong on our end. Please try again."

/-- `userMessage` getter: user-safe display message derived from the status. -/
def CynapsApiError.userMessage (e : CynapsApiError) : String :=
  if e.isAuthError then authErrorSentence
  else if e.isRateLimited then e.message
  else if e.isServerError then serverErrorSentence
  else e.message

/-- A value thrown in JavaScript: an already-typed CynapsApiError instance,
a native Error (identified by `instanceof Error`, carrying a message), or any
other value (subject to `String(...)` coercion). -/
inductive JSError where
  | typed : CynapsApiError → JSError
  | native : String → JSError
  | other : JSVal → JSError

/-- JS `String(v)` coercion for the modelled values: array elements are
joined with commas, with `null`/`undefined` elements printing as empty. -/
def jsToString : JSVal → String
  | JSVal.undefined => "undefined"
  | JSVal.null => "null"
  | JSVal.bool b => if b then "true" else "false"
  | JSVal.num n => toString n
  | JSVal.str s => s
  | JSVal.obj _ => "[object Object]"
  | JSVal.arr elems => jsArrToString elems
where
  jsArrToString : List JSVal → String
    | [] => ""
    | [x] => jsElemToString x
    | x :: xs => jsElemToString x ++ "," ++ jsArrToString xs
  jsElemToString : JSVal → String
    | JSVal.undefined => ""
    | JSVal.null => ""
    | v => jsToString v

/-- `wrapError` from src/core/errors.ts: wrap an unknown thrown value into a
CynapsApiError; already-typed errors pass through unchanged. -/
def wrapError : JSError → CynapsApiError
  | JSError.typed e => e
  | JSError.native msg => { message := msg, status := 500, code := some "PLUGIN_ERROR" }
  | JSError.other v => { message := jsToString v, status := 500, code := some "UNKNOWN_ERROR" }

-- ─── Authenticated caller (src/core/api-client.ts) ───────────────

/-- Default timeout in milliseconds (DEFAULT_TIMEOUT_MS). -/
def DEFAULT_TIMEOUT_MS : Nat := 30000

/-- Default retry budget (MAX_RETRIES). -/
def MAX_RETRIES : Nat := 2

/-- Base retry delay in milliseconds (RETRY_DELAY_MS). -/
def RETRY_DELAY_MS : Int := 1000

/-- Shape of the backend's standardized error body, as read by the client. -/
structure ApiErrorBody where
  error : Option String := none
  code : Option String := none
  errorId : Option String := none
deriving DecidableEq, Repr

/-- Whether `sub` occurs as a contiguous substring of `cs` — the model of
JavaScript's `String.prototype.includes`. -/
def containsSub (cs sub : List Char) : Bool :=
  match cs with
  | [] => sub.isEmpty
  | _ :: rest => List.isPrefixOf sub cs || containsSub rest sub

/-- JS `s.includes(sub)`. -/
def jsIncludes (s sub : String) : Bool :=
  containsSub s.data sub.data

/-- JS `parseInt(s, 10)`: skip leading whitespace, take an optional sign and
the leading decimal digits; `none` models NaN (no digits found). -/
def jsParseInt (s : String) : Option Int :=
  let cs := s.data.dropWhile (fun c => c == ' ' || c == '\t' || c == '\n' || c == '\r')
  let signAndRest : Int × List Char :=
    match cs with
    | '-' :: r => (-1, r)
    | '+' :: r => (1, r)
    | r => (1, r)
  let ds := signAndRest.2.takeWhile Char.isDigit
  if ds.isEmpty then none
  else some (signAndRest.1 * (ds.foldl (fun acc c => acc * 10 + (c.toNat - 48)) 0 : Nat))

/-- `parseRetryAfter` from src/core/api-client.ts, as a function of the
Retry-After header value (`none` when the header is absent): default 5 when
the header is missing, empty, or not a number; otherwise the parsed number of
seconds clamped to at most 60. -/
def parseRetryAfter (retryAfterHeader : Option String) : Int :=
  match retryAfterHeader with
  | none => 5
  | some header =>
      if header = "" then 5
      else
        match jsParseInt header with
        | none => 5
        | some seconds => min seconds 60

/-- Message built by the error-parsing code: `errorBody.error || "HTTP <status>"`,
where an unparseable body (`none`) was already replaced by the synth
`{ error: "HTTP <status>" }` object, and a missing/empty `error` field is
falsy and falls back to the same string. -/
def errorMessageOf (status : Nat) (b : Option ApiErrorBody) : String :=
  match b with
  | none => "HTTP " ++ toString status
  | some body =>
      match body.error with
      | none => "HTTP " ++ toString status
      | some s => if s = "" then "HTTP " ++ toString status else s

/-- The CynapsApiError constructed by `call` from a non-2xx response:
message, status, and the body's machine code and correlation id. -/
def mkApiError (status : Nat) (b : Option ApiErrorBody) : CynapsApiError :=
  { message := errorMessageOf status b
    status := status
    code := b.bind ApiErrorBody.code
    errorId := b.bind ApiErrorBody.errorId }

/-- Message of the CynapsApiError built in the catch-branch of `call`: a
thrown message mentioning "timeout" is replaced by the timed-out sentence. -/
def networkErrorMessage (timeoutMs : Nat) (message : String) : String :=
  if jsIncludes message "timeout" then
    "Request timed out after " ++ toString timeoutMs ++ "ms"
  else message

/-- The status-0 NETWORK_ERROR CynapsApiError built in the catch-branch. -/
def mkNetworkError (timeoutMs : Nat) (message : String) : CynapsApiError :=
  { message := networkErrorMessage timeoutMs message
    status := 0
    code := some "NETWORK_ERROR" }

/-- The observable outcome of one fetch attempt inside `call`. -/
inductive AttemptOutcome where
  /-- fetch resolved with a 2xx response whose body parsed as JSON. -/
  | success : JSVal → AttemptOutcome
  /-- fetch resolved with a 2xx response whose body failed to parse (for
  example an empty body); carries the message of the raised parse error. -/
  | successUnparseable : String → AttemptOutcome
  /-- fetch resolved with a non-2xx response: status, parsed error body
  (`none` when the body is unparseable), and the Retry-After header value. -/
  | httpError : Nat → Option ApiErrorBody → Option String → AttemptOutcome
  /-- fetch itself rejected (timeout, DNS, connection); carries the message
  of the raised error. -/
  | networkError : String → AttemptOutcome

/-- Result of `call`: the returned body or the thrown CynapsApiError, with
the number of fetch attempts performed and the list of backoff delays (in
milliseconds) slept between attempts. -/
inductive CallResult where
  | ok : JSVal → Nat → List Int → CallResult
  | err : CynapsApiError → Nat → List Int → CallResult

/-- The retry loop of `CynapsApiClient.call`, one iteration per attempt.
`remaining` counts the retries still available (`maxRetries - attempt`).
A 2xx response returns its parsed body. A non-2xx response becomes a
CynapsApiError; a client error (4xx) is thrown at once, any other is retried
while budget remains, sleeping the Retry-After-derived delay for a 429 and
exponential backoff otherwise. A rejection of fetch or of body parsing is
classified as a status-0 NETWORK_ERROR and retried with exponential backoff.
Exhausting the budget throws the last error. -/
def callGo (outcomes : Nat → AttemptOutcome) (timeoutMs : Nat) :
    Nat → Nat → List Int → CallResult
  | attempt, remaining, delays =>
  match outcomes attempt with
  | AttemptOutcome.success body => CallResult.ok body (attempt + 1) delays
  | AttemptOutcome.successUnparseable msg =>
      match remaining with
      | 0 => CallResult.err (mkNetworkError timeoutMs msg) (attempt + 1) delays
      | r + 1 =>
          callGo outcomes timeoutMs (attempt + 1) r
            (delays ++ [RETRY_DELAY_MS * 2 ^ attempt])
  | AttemptOutcome.httpError status errorBody retryAfter =>
      let apiError := mkApiError status errorBody
      if apiError.isClientError then CallResult.err apiError (attempt + 1) delays
      else
        match remaining with
        | 0 => CallResult.err apiError (attempt + 1) delays
        | r + 1 =>
            let delay : Int :=
              if apiError.isRateLimited then parseRetryAfter retryAfter * 1000
              else RETRY_DELAY_MS * 2 ^ attempt
            callGo outcomes timeoutMs (attempt + 1) r (delays ++ [delay])
  | AttemptOutcome.networkError msg =>
      match remaining with
      | 0 => CallResult.err (mkNetworkError timeoutMs msg) (attempt + 1) delays
      | r + 1 =>
          callGo outcomes timeoutMs (attempt + 1) r
            (delays ++ [RETRY_DELAY_MS * 2 ^ attempt])

/-- `CynapsApiClient.call` as a function of the per-attempt outcomes, the
retry budget and the timeout: run the loop from attempt 0 with the full
budget and no delays slept yet. -/
def call (outcomes : Nat → AttemptOutcome) (maxRetries timeoutMs : Nat) : CallResult :=
  callGo outcomes timeoutMs 0 maxRetries []

/-- The CynapsApiError that one attempt outcome classifies to (`none` for a
parsed 2xx success). -/
def classifyOutcome (timeoutMs : Nat) : AttemptOutcome → Option CynapsApiError
  | AttemptOutcome.success _ => none
  | AttemptOutcome.successUnparseable m => some (mkNetworkError timeoutMs m)
  | AttemptOutcome.httpError st b _ => some (mkApiError st b)
  | AttemptOutcome.networkError m => some (mkNetworkError timeoutMs m)

/-- Whether the retry loop keeps going after this outcome (all failures
except client-error responses). -/
def retryableOutcome : AttemptOutcome → Bool
  | AttemptOutcome.success _ => false
  | AttemptOutcome.successUnparseable _ => true
  | AttemptOutcome.httpError st _ _ => !(400 ≤ st && st < 500)
  | AttemptOutcome.networkError _ => true

-- ─── Resource query façade (CynapsApiClient.query) ───────────────

/-- Result of `query`'s response handling: returned rows or a raised value
(a CynapsApiError for HTTP failures, the raw parse error otherwise). -/
inductive QueryResult where
  | rows : JSVal → QueryResult
  | raised : JSError → QueryResult

/-- The response handling of `CynapsApiClient.query`: a non-ok status raises
a CynapsApiError built from the parsed error body (message fallback and
machine code, no correlation id); an ok response with status 204 or a
content-length header of "0" yields an empty array without touching the
body; otherwise the parsed JSON body is returned, a parse failure raising
the raw parse error (`parseErrMsg`). -/
def queryHandleResponse (status : Nat) (contentLength : Option String)
    (errorBody : Option ApiErrorBody) (jsonBody : Option JSVal)
    (parseErrMsg : String) : QueryResult :=
  if 200 ≤ status ∧ status < 300 then
    if status = 204 ∨ contentLength = some "0" then QueryResult.rows (JSVal.arr [])
    else
      match jsonBody with
      | some v => QueryResult.rows v
      | none => QueryResult.raised (JSError.native parseErrMsg)
  else
    QueryResult.raised (JSError.typed
      { message := errorMessageOf status errorBody
        status := status
        code := errorBody.bind ApiErrorBody.code })

-- ─── Confirmation gate (src/core/types.ts, src/tools/musicmation-write.ts) ──

/-- JS `typeof v` for the modelled values (`typeof null` is "object", and
arrays are objects). -/
def jsTypeof : JSVal → String
  | JSVal.undefined => "undefined"
  | JSVal.null => "object"
  | JSVal.bool _ => "boolean"
  | JSVal.num _ => "number"
  | JSVal.str _ => "string"
  | JSVal.obj _ => "object"
  | JSVal.arr _ => "object"

/-- Named property access `v.k` on an arbitrary value: field lookup on an
object, `undefined` on everything else (primitives and arrays carry no such
own property in the modelled JSON-derived values). -/
def jsGetProp (v : JSVal) (k : String) : JSVal :=
  match v with
  | JSVal.obj fields => getField fields k
  | _ => JSVal.undefined

/-- `isConfirmationResponse` from src/core/types.ts (body reproduced in
COMMUNITY_SUBMISSION.md): a value is a confirmation envelope when
`typeof v === "object" && v !== null && v.confirmation_required === true`. -/
def isConfirmationResponse (v : JSVal) : Bool :=
  jsTypeof v == "object" && !v.isNull && (jsGetProp v "confirmation_required").isTrue

/-- The instruction sentence the rate-tracks handler attaches to a detected
confirmation envelope. -/
def rateTracksInstruction : String :=
  "Present this action to the user. Call again with the confirmation_token when approved."

/-- Result handling of `musicmation_rate_tracks.execute`
(src/tools/musicmation-write.ts): the payload handed to `jsonResult`. A
detected confirmation envelope is returned spread into a new object with an
added `instruction` field; any other backend result is returned unmodified.
(Detection implies the value is an object, so the spread is only modelled
there; the fallback returns the value itself.) -/
def rateTracksHandleResult (result : JSVal) : JSVal :=
  if isConfirmationResponse result then
    match result with
    | JSVal.obj fields =>
        JSVal.obj (setField fields "instruction" (JSVal.str rateTracksInstruction))
    | v => v
  else result

-- ─── musicmation_generate (src/tools/musicmation-generate.ts) ────

/-- The row returned by the track-creation POST; only the `id` field is read
by the generate handler. -/
structure Track where
  id : String
deriving DecidableEq, Repr

/-- Response of the generation-enqueue edge functions. -/
structure EnqueueResult where
  success : Bool
  enqueued : Int
  skipped : Int
  total : Int
  tier : String
deriving DecidableEq, Repr

/-- Outcome of one awaited backend step inside a handler: the resolved value
or the value the step threw. -/
inductive StepOutcome (α : Type) where
  | ok : α → StepOutcome α
  | thrown : JSError → StepOutcome α

/-- `items?.[0]?.id` followed by the falsy guard `if (!trackId)`: the id of
the first created row, `none` when no row came back or the id is empty. -/
def trackIdOf (items : List Track) : Option String :=
  match items.head? with
  | none => none
  | some t => if t.id = "" then none else some t.id

/-- The payload `musicmation_generate.execute` hands to `jsonResult`. -/
structure GenerateOutput where
  track_id : String
  provider : String
  enqueued : Bool
  tier : String
  message : String
deriving DecidableEq, Repr

/-- Control flow of `musicmation_generate.execute` as a function of the two
backend steps: create the track row, then enqueue generation. A create
failure propagates (rethrown through `wrapError` by the outer catch); a
missing created id throws CREATE_FAILED; an enqueue failure is caught and
reported as partial success carrying the created track id with
`enqueued: false`; an enqueue result reports `enqueued` by its count. -/
def musicmationGenerate (provider title : String)
    (createStep : StepOutcome (List Track))
    (enqueueStep : StepOutcome EnqueueResult) : StepOutcome GenerateOutput :=
  let isSonauto := provider == "sonauto"
  match createStep with
  | StepOutcome.thrown e => StepOutcome.thrown (JSError.typed (wrapError e))
  | StepOutcome.ok items =>
      match trackIdOf items with
      | none =>
          StepOutcome.thrown (JSError.typed (wrapError (JSError.typed
            { message := "Failed to create track item — no ID returned"
              status := 500
              code := some "CREATE_FAILED" })))
      | some trackId =>
          match enqueueStep with
          | StepOutcome.ok result =>
              let variationMsg := if isSonauto then "1 song" else "2 variations"
              StepOutcome.ok
                { track_id := trackId
                  provider := provider
                  enqueued := decide (result.enqueued > 0)
                  tier := result.tier
                  message :=
                    if result.enqueued > 0 then
                      "Track \"" ++ title ++ "\" enqueued via " ++ provider ++
                        ". Generating " ++ variationMsg ++ " — takes 30-90 seconds."
                    else
                      "Track created but generation failed. " ++
                        toString result.skipped ++ " skipped." }
          | StepOutcome.thrown e =>
              let wrapped := wrapError e
              StepOutcome.ok
                { track_id := trackId
                  provider := provider
                  enqueued := false
                  tier := "unknown"
                  message := "Track created (" ++ trackId ++ ") but " ++ provider ++
                    " generation failed: " ++ wrapped.userMessage }

-- ─── musicmation_update_item (src/tools/musicmation-content.ts) ──

/-- The updatable-field allow-list of `musicmation_update_item.execute`. -/
def updatableFields : List String :=
  ["project_id", "title", "status", "transcript", "transcript_draft",
   "short_summary", "copyright", "artist", "composer", "genre", "mood",
   "tone", "instrument", "album", "style_d", "style_e", "style_f",
   "sub_cluster", "type", "series_name", "part",
   "image_url", "audio_url", "rating",
   "shortlisted", "selected_for_upload", "done_flag"]

/-- The PATCH body built by `musicmation_update_item.execute`:
`for (const key of updatableFields) if (params[key] !== undefined) body[key] = params[key]`
— the same loop shape as `pick`, starting from an empty object. -/
def updateItemBody (params : JSObj) : JSObj :=
  pickGo params updatableFields []

/-- What `musicmation_update_item.execute` does after building the body. -/
inductive UpdateItemAction where
  /-- returns `jsonResult` with this message and performs no network request. -/
  | noRequest : String → UpdateItemAction
  /-- issues the PATCH against sunoma_items filtered by the item id. -/
  | patchRequest : JSVal → JSObj → UpdateItemAction

/-- The network-facing decision of `musicmation_update_item.execute`: an
empty update body short-circuits with "No fields to update." and no request;
otherwise a PATCH is issued with the body, filtered by `params.item_id`. -/
def updateItemAction (params : JSObj) : UpdateItemAction :=
  let body := updateItemBody params
  if body.length = 0 then UpdateItemAction.noRequest "No fields to update."
  else UpdateItemAction.patchRequest (getField params "item_id") body

-- ─── Helper lemmas: association-list objects ─────────────────────

theorem getField_setField_self (o : JSObj) (k : String) (v : JSVal) :
    getField (setField o k v) k = v := by
  induction o with
  | nil => simp [setField, getField]
  | cons p rest ih =>
      obtain ⟨k', v'⟩ := p
      by_cases h : k' = k
      · subst h
        simp [setField, getField]
      · simp [setField, getField, h, ih]

theorem getField_setField_ne (o : JSObj) (k k' : String) (v : JSVal) (h : k' ≠ k) :
    getField (setField o k v) k' = getField o k' := by
  have hkk : ¬ (k = k') := fun hh => h hh.symm
  induction o with
  | nil =>
      simp [setField, getField, hkk]
  | cons p rest ih =>
      obtain ⟨k0, v0⟩ := p
      by_cases h0 : k0 = k
      · subst h0
        simp [setField, getField, hkk]
      · simp [setField, getField, h0, ih]

theorem hasKey_setField (o : JSObj) (k k' : String) (v : JSVal) :
    hasKey (setField o k v) k' = (hasKey o k' || k == k') := by
  induction o with
  | nil => simp [setField, hasKey]
  | cons p rest ih =>
      obtain ⟨k0, v0⟩ := p
      by_cases h0 : k0 = k
      · subst h0
        cases hk : (k0 == k') <;> simp [setField, hasKey, hk]
      · cases hk : (k0 == k') <;> simp [setField, hasKey, h0, hk, ih, Bool.or_assoc]

-- ─── Helper lemmas: the pick loop ────────────────────────────────

theorem getField_pickGo (obj : JSObj) (keys : List String) (out : JSObj) (k : String) :
    getField (pickGo obj keys out) k =
      if k ∈ keys ∧ (getField obj k).isUndefined = false then getField obj k
      else getField out k := by
  induction keys generalizing out with
  | nil => simp [pickGo]
  | cons k0 rest ih =>
      by_cases hmem : k ∈ rest ∧ (getField obj k).isUndefined = false
      · simp [pickGo, ih, hmem, List.mem_cons]
      · by_cases hk : k = k0
        · subst hk
          cases hu : (getField obj k).isUndefined with
          | true => simp [pickGo, ih, hmem, hu]
          | false =>
              simp [pickGo, hu, ih, hmem, getField_setField_self]
        · cases hu0 : (getField obj k0).isUndefined with
          | true =>
              simp [pickGo, hu0, ih, hmem, List.mem_cons, hk]
          | false =>
              simp [pickGo, hu0, ih, hmem, List.mem_cons, hk,
                getField_setField_ne out k0 k _ hk]

theorem hasKey_pickGo (obj : JSObj) (keys : List String) (out : JSObj) (k : String) :
    hasKey (pickGo obj keys out) k =
      (hasKey out k || (decide (k ∈ keys) && !(getField obj k).isUndefined)) := by
  induction keys generalizing out with
  | nil => simp [pickGo]
  | cons k0 rest ih =>
      by_cases hk : k = k0
      · subst hk
        cases hu : (getField obj k).isUndefined with
        | true =>
            simp [pickGo, hu, ih, List.mem_cons]
        | false =>
            simp [pickGo, hu, ih, hasKey_setField, List.mem_cons]
      · cases hu0 : (getField obj k0).isUndefined with
        | true =>
            simp [pickGo, hu0, ih, List.mem_cons, hk]
        | false =>
            have hne : ¬ (k0 == k) = true := by
              simp
              exact fun hh => hk hh.symm
            simp [pickGo, hu0, ih, hasKey_setField, List.mem_cons, hk, hne]

theorem pickGo_all_undefined (obj : JSObj) (keys : List String) (out : JSObj)
    (h : ∀ k ∈ keys, (getField obj k).isUndefined = true) :
    pickGo obj keys out = out := by
  induction keys generalizing out with
  | nil => rfl
  | cons k0 rest ih =>
      have h0 := h k0 (List.mem_cons_self _ _)
      simp [pickGo, h0]
      exact ih _ (fun k hk => h k (List.mem_cons_of_mem _ hk))

-- ─── Helper lemmas: the retry loop ───────────────────────────────

theorem callGo_unfold (outcomes : Nat → AttemptOutcome) (timeoutMs : Nat)
    (attempt remaining : Nat) (delays : List Int) :
    callGo outcomes timeoutMs attempt remaining delays =
      match outcomes attempt with
      | AttemptOutcome.success body => CallResult.ok body (attempt + 1) delays
      | AttemptOutcome.successUnparseable msg =>
          match remaining with
          | 0 => CallResult.err (mkNetworkError timeoutMs msg) (attempt + 1) delays
          | r + 1 =>
              callGo outcomes timeoutMs (attempt + 1) r
                (delays ++ [RETRY_DELAY_MS * 2 ^ attempt])
      | AttemptOutcome.httpError status errorBody retryAfter =>
          if (mkApiError status errorBody).isClientError then
            CallResult.err (mkApiError status errorBody) (attempt + 1) delays
          else
            match remaining with
            | 0 => CallResult.err (mkApiError status errorBody) (attempt + 1) delays
            | r + 1 =>
                callGo outcomes timeoutMs (attempt + 1) r
                  (delays ++
                    [if (mkApiError status errorBody).isRateLimited then
                        parseRetryAfter retryAfter * 1000
                      else RETRY_DELAY_MS * 2 ^ attempt])
      | AttemptOutcome.networkError msg =>
          match remaining with
          | 0 => CallResult.err (mkNetworkError timeoutMs msg) (attempt + 1) delays
          | r + 1 =>
              callGo outcomes timeoutMs (attempt + 1) r
                (delays ++ [RETRY_DELAY_MS * 2 ^ attempt]) := by
  rw [callGo]

theorem callGo_exhausts (outcomes : Nat → AttemptOutcome) (timeoutMs : Nat)
    (attempt remaining : Nat) (delays : List Int)
    (h : ∀ i, attempt ≤ i → i ≤ attempt + remaining → retryableOutcome (outcomes i) = true) :
    ∃ ds e, callGo outcomes timeoutMs attempt remaining delays
        = CallResult.err e (attempt + remaining + 1) ds
      ∧ classifyOutcome timeoutMs (outcomes (attempt + remaining)) = some e := by
  induction remaining generalizing attempt delays with
  | zero =>
      have h0 := h attempt (le_refl _) (by omega)
      rw [callGo_unfold]
      cases ho : outcomes attempt with
      | success body => rw [ho] at h0; simp [retryableOutcome] at h0
      | successUnparseable m =>
          exact ⟨delays, mkNetworkError timeoutMs m, by simp,
            by simp [classifyOutcome, ho]⟩
      | httpError st b ra =>
          rw [ho] at h0
          simp only [retryableOutcome, Bool.not_eq_true'] at h0
          refine ⟨delays, mkApiError st b, ?_, by simp [classifyOutcome, ho]⟩
          simp [CynapsApiError.isClientError, mkApiError, h0]
      | networkError m =>
          exact ⟨delays, mkNetworkError timeoutMs m, by simp,
            by simp [classifyOutcome, ho]⟩
  | succ r ih =>
      have h0 := h attempt (le_refl _) (by omega)
      have hstep : ∀ i, attempt + 1 ≤ i → i ≤ attempt + 1 + r →
          retryableOutcome (outcomes i) = true := by
        intro i h1 h2
        exact h i (by omega) (by omega)
      have harith : attempt + (r + 1) = attempt + 1 + r := by omega
      rw [callGo_unfold]
      cases ho : outcomes attempt with
      | success body => rw [ho] at h0; simp [retryableOutcome] at h0
      | successUnparseable m =>
          obtain ⟨ds, e, heq, hcls⟩ :=
            ih (attempt + 1) (delays ++ [RETRY_DELAY_MS * 2 ^ attempt]) hstep
          refine ⟨ds, e, ?_, ?_⟩
          · rw [show attempt + (r + 1) + 1 = attempt + 1 + r + 1 by omega]
            simpa using heq
          · rw [harith]; exact hcls
      | httpError st b ra =>
          rw [ho] at h0
          simp only [retryableOutcome, Bool.not_eq_true'] at h0
          obtain ⟨ds, e, heq, hcls⟩ := ih (attempt + 1)
            (delays ++ [if (mkApiError st b).isRateLimited then parseRetryAfter ra * 1000
                        else RETRY_DELAY_MS * 2 ^ attempt]) hstep
          refine ⟨ds, e, ?_, ?_⟩
          · rw [show attempt + (r + 1) + 1 = attempt + 1 + r + 1 by omega]
            simpa [CynapsApiError.isClientError, mkApiError, h0] using heq
          · rw [harith]; exact hcls
      | networkError m =>
          obtain ⟨ds, e, heq, hcls⟩ :=
            ih (attempt + 1) (delays ++ [RETRY_DELAY_MS * 2 ^ attempt]) hstep
          refine ⟨ds, e, ?_, ?_⟩
          · rw [show attempt + (r + 1) + 1 = attempt + 1 + r + 1 by omega]
            simpa using heq
          · rw [harith]; exact hcls

-- ─── Helper lemmas: confirmation detection ───────────────────────

theorem isTrue_iff (v : JSVal) : v.isTrue = true ↔ v = JSVal.bool true := by
  cases v with
  | bool b => cases b <;> simp [JSVal.isTrue]
  | undefined => simp [JSVal.isTrue]
  | null => simp [JSVal.isTrue]
  | num n => simp [JSVal.isTrue]
  | str s => simp [JSVal.isTrue]
  | obj fields => simp [JSVal.isTrue]
  | arr elems => simp [JSVal.isTrue]

-- ─── Claim theorems ──────────────────────────────────────────────

/-- C3: for every input object and allow-list, the output of pick has key
set exactly the intersection of the allow-list with the input's keys whose
value is not the undefined sentinel (so keys outside the allow-list never
appear, whatever their value or name), and every copied value — explicit
null included — is preserved verbatim. Mutation-freedom is inherent in the
embedding: pick is a pure function that builds its output from the empty
object, never writing to its input. -/
theorem pick_sanitizer_spec (obj : JSObj) (keys : List String) (k : String) :
    hasKey (pick obj keys) k = (decide (k ∈ keys) && !(getField obj k).isUndefined) ∧
    getField (pick obj keys) k =
      (if k ∈ keys ∧ (getField obj k).isUndefined = false then getField obj k
       else JSVal.undefined) := by
  constructor
  · rw [pick, hasKey_pickGo]
    simp [hasKey]
  · rw [pick, getField_pickGo]
    simp [getField]

/-- C7: wrapError is idempotent and exhaustive — an already-typed error is
returned unchanged (hence wrap after wrap equals wrap), a native Error
becomes a typed error with the same message, status 500 and machine code
PLUGIN_ERROR, and any other value is string-coerced with status 500 and
machine code UNKNOWN_ERROR. -/
theorem wrapError_spec :
    (∀ x : JSError, wrapError (JSError.typed (wrapError x)) = wrapError x) ∧
    (∀ e : CynapsApiError, wrapError (JSError.typed e) = e) ∧
    (∀ msg : String, wrapError (JSError.native msg) =
        { message := msg, status := 500, code := some "PLUGIN_ERROR", errorId := none }) ∧
    (∀ v : JSVal, wrapError (JSError.other v) =
        { message := jsToString v, status := 500, code := some "UNKNOWN_ERROR", errorId := none }) :=
  ⟨fun _ => rfl, fun _ => rfl, fun _ => rfl, fun _ => rfl⟩

/-- C8: the derived display message of a CynapsApiError is the fixed auth
sentence for status 401 or 403, the fixed server sentence for any status of
at least 500, and the raw message verbatim for 429 and for every other
client status in 400..499. -/
theorem userMessage_display_spec (e : CynapsApiError) :
    ((e.status = 401 ∨ e.status = 403) → e.userMessage = authErrorSentence) ∧
    (500 ≤ e.status → e.userMessage = serverErrorSentence) ∧
    (e.status = 429 → e.userMessage = e.message) ∧
    (400 ≤ e.status → e.status < 500 → e.status ≠ 401 → e.status ≠ 403 →
      e.status ≠ 429 → e.userMessage = e.message) := by
  refine ⟨?_, ?_, ?_, ?_⟩
  · intro h
    have ha : e.isAuthError = true := by
      simp only [CynapsApiError.isAuthError, Bool.or_eq_true, beq_iff_eq]
      exact h
    simp [CynapsApiError.userMessage, ha]
  · intro h
    have ha : e.isAuthError = false := by
      simp only [CynapsApiError.isAuthError, Bool.or_eq_false_iff, beq_eq_false_iff_ne, ne_eq]
      omega
    have hr : e.isRateLimited = false := by
      simp only [CynapsApiError.isRateLimited, beq_eq_false_iff_ne, ne_eq]
      omega
    have hs : e.isServerError = true := by
      simp only [CynapsApiError.isServerError, decide_eq_true_eq]
      exact h
    simp [CynapsApiError.userMessage, ha, hr, hs]
  · intro h
    have ha : e.isAuthError = false := by
      simp only [CynapsApiError.isAuthError, Bool.or_eq_false_iff, beq_eq_false_iff_ne, ne_eq]
      omega
    have hr : e.isRateLimited = true := by
      simp only [CynapsApiError.isRateLimited, beq_iff_eq]
      exact h
    simp [CynapsApiError.userMessage, ha, hr]
  · intro h400 h499 h401 h403 h429
    have ha : e.isAuthError = false := by
      simp only [CynapsApiError.isAuthError, Bool.or_eq_false_iff, beq_eq_false_iff_ne, ne_eq]
      exact ⟨h401, h403⟩
    have hr : e.isRateLimited = false := by
      simp only [CynapsApiError.isRateLimited, beq_eq_false_iff_ne, ne_eq]
      exact h429
    have hs : e.isServerError = false := by
      simp only [CynapsApiError.isServerError, decide_eq_false_iff_not]
      omega
    simp [CynapsApiError.userMessage, ha, hr, hs]

/-- Witness for C8 at concrete errors: a 429 shows its raw message, a 401
shows the fixed auth sentence. -/
theorem userMessage_display_spec_witness :
    CynapsApiError.userMessage { message := "Rate limit exceeded", status := 429 }
        = "Rate limit exceeded" ∧
    CynapsApiError.userMessage { message := "JWT expired blah internal", status := 401 }
        = authErrorSentence :=
  ⟨(userMessage_display_spec _).2.2.1 rfl, (userMessage_display_spec _).1 (Or.inl rfl)⟩

/-- C4: a backend value is detected as a confirmation envelope exactly when
it is an object (non-null, per the structural check) whose
confirmation_required field is strictly boolean true; the rate-tracks
handler returns a non-detected payload unmodified, and returns a detected
envelope spread into a new object carrying the added instruction field. -/
theorem confirmation_envelope_spec (v : JSVal) :
    (isConfirmationResponse v = true ↔
      ∃ fields, v = JSVal.obj fields ∧
        getField fields "confirmation_required" = JSVal.bool true) ∧
    (isConfirmationResponse v = false → rateTracksHandleResult v = v) ∧
    (∀ fields, v = JSVal.obj fields → isConfirmationResponse v = true →
      rateTracksHandleResult v =
        JSVal.obj (setField fields "instruction" (JSVal.str rateTracksInstruction))) := by
  refine ⟨?_, ?_, ?_⟩
  · cases v with
    | obj fields =>
        simp [isConfirmationResponse, jsTypeof, jsGetProp, JSVal.isNull, isTrue_iff]
    | undefined => simp [isConfirmationResponse, jsTypeof]
    | null => simp [isConfirmationResponse, JSVal.isNull]
    | bool b => simp [isConfirmationResponse, jsTypeof]
    | num n => simp [isConfirmationResponse, jsTypeof]
    | str s => simp [isConfirmationResponse, jsTypeof]
    | arr elems =>
        simp [isConfirmationResponse, jsTypeof, jsGetProp, JSVal.isNull, JSVal.isTrue]
  · intro h
    simp [rateTracksHandleResult, h]
  · intro fields hv h
    subst hv
    simp [rateTracksHandleResult, h]

/-- Witness for C4 at a concrete envelope: a confirmation-required object is
detected and returned with the instruction field appended. -/
theorem confirmation_envelope_spec_witness :
    rateTracksHandleResult (JSVal.obj [("confirmation_required", JSVal.bool true)]) =
      JSVal.obj [("confirmation_required", JSVal.bool true),
                 ("instruction", JSVal.str rateTracksInstruction)] :=
  (confirmation_envelope_spec _).2.2 _ rfl (by decide)

/-- C5: with the default budget of 2 retries, a call seeing 500, 500, then
200 succeeds after exactly three attempts (having slept the exponential
1000ms and 2000ms backoffs); and any call whose every attempt yields a
server-error response exhausts its budget and fails with the typed error
carrying the last observed status after exactly maxRetries + 1 attempts. -/
theorem call_retry_budget_spec :
    (call (fun i => if i < 2 then
          AttemptOutcome.httpError 500 (some { error := some "Internal error" }) none
        else AttemptOutcome.success (JSVal.str "ok")) MAX_RETRIES DEFAULT_TIMEOUT_MS
      = CallResult.ok (JSVal.str "ok") 3 [1000, 2000]) ∧
    (∀ (outcomes : Nat → AttemptOutcome) (maxRetries timeoutMs : Nat)
       (statuses : Nat → Nat) (bodies : Nat → Option ApiErrorBody) (ras : Nat → Option String),
       (∀ i, i ≤ maxRetries →
          outcomes i = AttemptOutcome.httpError (statuses i) (bodies i) (ras i)) →
       (∀ i, i ≤ maxRetries → 500 ≤ statuses i) →
       ∃ ds, call outcomes maxRetries timeoutMs
           = CallResult.err (mkApiError (statuses maxRetries) (bodies maxRetries))
               (maxRetries + 1) ds) := by
  constructor
  · rfl
  · intro outcomes maxRetries timeoutMs statuses bodies ras hout hst
    have h : ∀ i, 0 ≤ i → i ≤ 0 + maxRetries → retryableOutcome (outcomes i) = true := by
      intro i _ hi
      rw [hout i (by omega)]
      simp only [retryableOutcome, Bool.not_eq_true', Bool.and_eq_false_iff,
        decide_eq_false_iff_not]
      have := hst i (by omega)
      omega
    obtain ⟨ds, e, heq, hcls⟩ := callGo_exhausts outcomes timeoutMs 0 maxRetries [] h
    simp only [Nat.zero_add] at heq hcls
    rw [hout maxRetries (le_refl _)] at hcls
    simp only [classifyOutcome, Option.some.injEq] at hcls
    refine ⟨ds, ?_⟩
    show callGo outcomes timeoutMs 0 maxRetries [] = _
    rw [heq, ← hcls]

/-- Witness for C5 against persistent 500s with the default budget: 3
attempts, typed error with status 500. -/
theorem call_retry_budget_spec_witness :
    ∃ ds, call (fun _ => AttemptOutcome.httpError 500 none none) 2 30000
        = CallResult.err (mkApiError 500 none) 3 ds :=
  call_retry_budget_spec.2 (fun _ => AttemptOutcome.httpError 500 none none) 2 30000
    (fun _ => 500) (fun _ => none) (fun _ => none) (fun _ _ => rfl) (fun _ _ => le_refl _)

/-- C6: a call whose first attempt draws a response classifying as a client
error (status 400..499) fails immediately with that typed error after
exactly one attempt and no backoff sleep, whatever the retry budget. -/
theorem client_error_no_retry_spec (outcomes : Nat → AttemptOutcome)
    (maxRetries timeoutMs status : Nat) (body : Option ApiErrorBody) (ra : Option String)
    (h0 : outcomes 0 = AttemptOutcome.httpError status body ra)
    (h400 : 400 ≤ status) (h499 : status < 500) :
    call outcomes maxRetries timeoutMs = CallResult.err (mkApiError status body) 1 [] := by
  show callGo outcomes timeoutMs 0 maxRetries [] = _
  rw [callGo, h0]
  have hc : (mkApiError status body).isClientError = true := by
    simp only [CynapsApiError.isClientError, mkApiError, Bool.and_eq_true, decide_eq_true_eq]
    omega
  simp [hc]

/-- Witness for C6: a 400 with a parsed error body is thrown at once. -/
theorem client_error_no_retry_spec_witness :
    call (fun _ => AttemptOutcome.httpError 400
        (some { error := some "Invalid input", code := some "VALIDATION_ERROR" }) none) 2 30000
      = CallResult.err
          (mkApiError 400 (some { error := some "Invalid input", code := some "VALIDATION_ERROR" }))
          1 [] :=
  client_error_no_retry_spec _ 2 30000 400 _ none rfl (by omega) (by omega)

/-- C1 (code bug): the claim — and the comment in the retry loop itself —
say a 429 with retries remaining is retried after the Retry-After delay;
but 429 satisfies the client-error guard (400 ≤ 429 < 500) that precedes
the rate-limit branch, so the call throws immediately: one attempt, no
sleep, the Retry-After header never consulted. Evaluated here at a 429
first response with Retry-After 1s and the default budget of 2. -/
theorem rate_limited_not_retried_bug :
    call (fun _ => AttemptOutcome.httpError 429
        (some { error := some "Rate limit exceeded" }) (some "1")) 2 30000
      = CallResult.err { message := "Rate limit exceeded", status := 429 } 1 [] := rfl

/-- C2 counterexample: contrary to the claim, call does not treat an
empty-body 2xx response as a deliberately empty structured result — its
body parse failure is caught as a network-class error, retried with
exponential backoff, and surfaced as a status-0 NETWORK_ERROR after three
attempts. -/
theorem call_empty_body_counterexample :
    call (fun _ => AttemptOutcome.successUnparseable "Unexpected end of JSON input") 2 30000
      = CallResult.err
          { message := "Unexpected end of JSON input", status := 0, code := some "NETWORK_ERROR" }
          3 [1000, 2000] := rfl

/-- C2 (amended): query normalizes every successful 204 or
content-length-0 response to an empty sequence rather than a parse error;
call has no such special case — a 2xx response whose body fails to parse
(e.g. an empty body) is treated as a retryable network-class failure and,
after exhausting the budget, surfaces as a NETWORK_ERROR typed error. -/
theorem empty_body_success_spec :
    (∀ (status : Nat) (contentLength : Option String) (errorBody : Option ApiErrorBody)
       (jsonBody : Option JSVal) (parseErrMsg : String),
       200 ≤ status → status < 300 → (status = 204 ∨ contentLength = some "0") →
       queryHandleResponse status contentLength errorBody jsonBody parseErrMsg
         = QueryResult.rows (JSVal.arr [])) ∧
    (∀ (msg : String) (maxRetries timeoutMs : Nat),
       ∃ ds, call (fun _ => AttemptOutcome.successUnparseable msg) maxRetries timeoutMs
           = CallResult.err (mkNetworkError timeoutMs msg) (maxRetries + 1) ds) := by
  constructor
  · intro status cl eb jb m h1 h2 h3
    simp [queryHandleResponse, h1, h2, h3]
  · intro msg maxRetries timeoutMs
    have h : ∀ i, 0 ≤ i → i ≤ 0 + maxRetries →
        retryableOutcome ((fun _ => AttemptOutcome.successUnparseable msg) i) = true :=
      fun _ _ _ => rfl
    obtain ⟨ds, e, heq, hcls⟩ := callGo_exhausts _ timeoutMs 0 maxRetries [] h
    simp only [Nat.zero_add] at heq hcls
    simp only [classifyOutcome, Option.some.injEq] at hcls
    refine ⟨ds, ?_⟩
    show callGo _ timeoutMs 0 maxRetries [] = _
    rw [heq, ← hcls]

/-- Witness for C2 (amended): a 204 delete response yields the empty array;
an all-empty-body call surfaces NETWORK_ERROR after 3 attempts. -/
theorem empty_body_success_spec_witness :
    queryHandleResponse 204 none none none "Unexpected end of JSON input"
        = QueryResult.rows (JSVal.arr []) ∧
    ∃ ds, call (fun _ => AttemptOutcome.successUnparseable "Unexpected end of JSON input") 2 30000
        = CallResult.err (mkNetworkError 30000 "Unexpected end of JSON input") 3 ds :=
  ⟨empty_body_success_spec.1 204 none none none _ (by omega) (by omega) (Or.inl rfl),
   empty_body_success_spec.2 _ 2 30000⟩

/-- C9: whenever the track-creation step succeeds with a created id and the
enqueue step throws any fault, the generate handler returns (does not
throw) a payload carrying that created track id and enqueued false. -/
theorem generate_partial_success_spec (provider title : String) (items : List Track)
    (trackId : String) (e : JSError) (h : trackIdOf items = some trackId) :
    ∃ out, musicmationGenerate provider title (StepOutcome.ok items) (StepOutcome.thrown e)
        = StepOutcome.ok out
      ∧ out.track_id = trackId ∧ out.enqueued = false := by
  refine ⟨{ track_id := trackId, provider := provider, enqueued := false, tier := "unknown",
            message := "Track created (" ++ trackId ++ ") but " ++ provider ++
              " generation failed: " ++ (wrapError e).userMessage }, ?_, rfl, rfl⟩
  simp [musicmationGenerate, h]

/-- Witness for C9: create succeeds with id track-1, enqueue fails with a
402 fault, and the handler reports the id with enqueued false. -/
theorem generate_partial_success_spec_witness :
    ∃ out, musicmationGenerate "suno" "Test Song" (StepOutcome.ok [{ id := "track-1" }])
        (StepOutcome.thrown (JSError.typed
          { message := "Insufficient credits", status := 402, code := some "INSUFFICIENT_CREDITS" }))
        = StepOutcome.ok out ∧ out.track_id = "track-1" ∧ out.enqueued = false :=
  generate_partial_success_spec "suno" "Test Song" _ "track-1" _ (by decide)

/-- C10: an update-item invocation whose parameters bind none of the
updatable fields to a defined value short-circuits with the
"No fields to update." result and issues no network request at all. -/
theorem update_item_no_fields_spec (params : JSObj)
    (h : ∀ k ∈ updatableFields, (getField params k).isUndefined = true) :
    updateItemAction params = UpdateItemAction.noRequest "No fields to update." := by
  have hbody : updateItemBody params = [] :=
    pickGo_all_undefined params updatableFields [] h
  simp [updateItemAction, hbody]

/-- Witness for C10: parameters holding only the required item id produce
the short-circuit result. -/
theorem update_item_no_fields_spec_witness :
    updateItemAction [("item_id", JSVal.str "item-1")]
      = UpdateItemAction.noRequest "No fields to update." :=
  update_item_no_fields_spec _ (by decide)

end Cynaps
